import Mathlib

/-!
Shallow embedding of `osc2mqtt/converter.py` (class `Osc2MqttConverter`),
the conversion rule engine of the osc2mqtt bridge.  Python values flowing
through the converter are modelled by the inductive type `Val`; Python
exceptions by `PyErr`; fallible Python code returns `Except PyErr _`.
Python standard-library functions used by the converter (`struct`,
`array`, `json`, `str.format`, `bytes.decode`/`str.encode`) are modelled
by executable Lean functions restricted to the cases the converter
exercises; each model documents its scope.  The regular-expression engine
(`re.search`) is external to the program and is passed in as an explicit
search function producing an optional match result.
-/

/-- Tokens produced by `util.parse_list`: numeric tokens become integer
indices, other tokens are name strings. -/
inductive Token where
  | num : Nat → Token
  | name : String → Token
  deriving Repr, DecidableEq

/-- The Python values that flow through the converter: integers, text
strings, booleans, byte strings (a byte is a `Nat` below 256), tuples,
lists, and `None`.  Python floats do not appear: no claim below depends
on float semantics, and the numeric coercions are modelled on integers. -/
inductive Val where
  | vint : Int → Val
  | vstr : String → Val
  | vbool : Bool → Val
  | vbytes : List Nat → Val
  | vtuple : List Val → Val
  | vlist : List Val → Val
  | vnull : Val
  deriving Repr

/-- Python exceptions raised by the modelled code paths. -/
inductive PyErr where
  | keyError : String → PyErr
  | typeError : String → PyErr
  | valueError : String → PyErr
  | indexError : String → PyErr
  | attrError : String → PyErr
  | unboundLocal : String → PyErr
  | structError : String → PyErr
  | jsonDecodeError : String → PyErr
  | unicodeDecodeError : String → PyErr
  | lookupError : String → PyErr
  | configError : String → PyErr
  deriving Repr, DecidableEq

mutual

/-- Decidable equality for `Val` (needed so concrete evaluations can be
settled by `decide`). -/
def Val.beq : Val → Val → Bool
  | .vint a, .vint b => a == b
  | .vstr a, .vstr b => a == b
  | .vbool a, .vbool b => a == b
  | .vbytes a, .vbytes b => a == b
  | .vtuple a, .vtuple b => Val.beqList a b
  | .vlist a, .vlist b => Val.beqList a b
  | .vnull, .vnull => true
  | _, _ => false

def Val.beqList : List Val → List Val → Bool
  | [], [] => true
  | a :: as, b :: bs => Val.beq a b && Val.beqList as bs
  | _, _ => false

end

instance : BEq Val := ⟨Val.beq⟩

mutual

def Val.beqRefl : (v : Val) → Val.beq v v = true
  | .vint a => by simp [Val.beq]
  | .vstr a => by simp [Val.beq]
  | .vbool a => by simp [Val.beq]
  | .vbytes a => by simp [Val.beq]
  | .vtuple a => by simpa [Val.beq] using Val.beqListRefl a
  | .vlist a => by simpa [Val.beq] using Val.beqListRefl a
  | .vnull => by simp [Val.beq]

def Val.beqListRefl : (l : List Val) → Val.beqList l l = true
  | [] => by simp [Val.beqList]
  | a :: as => by simp [Val.beqList, Val.beqRefl a, Val.beqListRefl as]

end

mutual

def Val.eqOfBeq : {a b : Val} → Val.beq a b = true → a = b
  | .vint _, .vint _, h => by simp [Val.beq] at h; simp [h]
  | .vstr _, .vstr _, h => by simp [Val.beq] at h; simp [h]
  | .vbool _, .vbool _, h => by simp [Val.beq] at h; simp [h]
  | .vbytes _, .vbytes _, h => by simp [Val.beq] at h; simp [h]
  | .vtuple a, .vtuple b, h => by
      simp [Val.beq] at h; simp [Val.eqListOfBeq h]
  | .vlist a, .vlist b, h => by
      simp [Val.beq] at h; simp [Val.eqListOfBeq h]
  | .vnull, .vnull, _ => rfl

def Val.eqListOfBeq : {a b : List Val} → Val.beqList a b = true → a = b
  | [], [], _ => rfl
  | x :: xs, y :: ys, h => by
      simp [Val.beqList] at h
      have h1 := Val.eqOfBeq h.1
      have h2 := Val.eqListOfBeq h.2
      rw [h1, h2]

end

instance : DecidableEq Val := fun a b =>
  if h : Val.beq a b = true then
    .isTrue (Val.eqOfBeq h)
  else
    .isFalse (fun he => h (he ▸ Val.beqRefl a))

/-- Hexadecimal digit characters, used by the bytes-repr model. -/
def hexDigit (n : Nat) : Char :=
  (("0123456789abcdef").data).getD n '0'

/-- Model of the repr of a single byte inside a Python bytes literal:
printable ASCII other than quote and backslash stands for itself, the rest
is a hexadecimal escape.  (CPython also uses special escapes for tab,
newline and carriage return; no claim below evaluates the repr of bytes
containing those.) -/
def byteReprChar (b : Nat) : String :=
  if b == 39 then "\\\x27"
  else if b == 92 then "\\\\"
  else if 32 ≤ b && b < 127 then (Char.ofNat b).toString
  else "\\x" ++ (hexDigit (b / 16)).toString ++ (hexDigit (b % 16)).toString

mutual

/-- Model of Python `repr` on the modelled value domain.  String reprs are
modelled without escape handling (the claims only evaluate reprs of
strings free of quotes and backslashes). -/
def pyRepr : Val → String
  | .vint n => toString n
  | .vstr s => "\x27" ++ s ++ "\x27"
  | .vbool b => if b then "True" else "False"
  | .vnull => "None"
  | .vbytes bs => "b\x27" ++ String.join (bs.map byteReprChar) ++ "\x27"
  | .vtuple vs =>
      "(" ++ String.intercalate ", " (pyReprList vs) ++
        (if vs.length == 1 then ",)" else ")")
  | .vlist vs => "[" ++ String.intercalate ", " (pyReprList vs) ++ "]"

def pyReprList : List Val → List String
  | [] => []
  | v :: vs => pyRepr v :: pyReprList vs

end

/-- Model of Python `str` on the modelled value domain: the text of a
string, otherwise the repr (container elements are repr-ed). -/
def pyStr (v : Val) : String :=
  match v with
  | .vstr s => s
  | v => pyRepr v

/-- Parse a nonempty all-digit character list as a natural number
(kernel-reducible replacement for the library string-to-number parse). -/
def parseNatDigits (cs : List Char) : Option Nat :=
  if cs.isEmpty || !cs.all (·.isDigit) then none
  else some (cs.foldl (fun acc c => acc * 10 + (c.toNat - 48)) 0)

/-- Model of `int(string)`: optional sign followed by decimal digits. -/
def parseIntStr (cs : List Char) : Option Int :=
  match cs with
  | '-' :: rest => (parseNatDigits rest).map (fun n => -(n : Int))
  | '+' :: rest => (parseNatDigits rest).map (fun n => (n : Int))
  | _ => (parseNatDigits cs).map (fun n => (n : Int))

/-- The whitespace characters stripped by Python `str.strip`. -/
def isPySpace (c : Char) : Bool :=
  c == ' ' || c == '\t' || c == '\n' || c == '\r' || c == '\x0b' || c == '\x0c'

/-- Strip leading and trailing whitespace from a character list. -/
def trimChars (cs : List Char) : List Char :=
  ((cs.dropWhile isPySpace).reverse.dropWhile isPySpace).reverse

/-- Split a character list on commas. -/
def splitComma : List Char → List (List Char)
  | [] => [[]]
  | ',' :: rest => [] :: splitComma rest
  | c :: rest =>
      match splitComma rest with
      | [] => [[c]]
      | g :: gs => (c :: g) :: gs

/-- Lower-case a string character by character. -/
def lowerStr (s : String) : String :=
  String.mk (s.data.map Char.toLower)

/-- Modelled from the spec: `util.as_bool` (the file `util.py` is not part
of the sources provided), the coercion of spec 4.1's `bool` kind.  Maps
common truthy/falsey spellings of a string, a nonzero integer, or a
boolean to a boolean.  No claim below depends on its exact semantics. -/
def as_bool : Val → Val
  | .vstr s =>
      .vbool (lowerStr s == "1" || lowerStr s == "true" || lowerStr s == "yes"
              || lowerStr s == "on" || lowerStr s == "y" || lowerStr s == "t")
  | .vint n => .vbool (n != 0)
  | .vbool b => .vbool b
  | v => v

/-- Model of the Python builtin `int` on the modelled value domain:
identity on integers, 0/1 on booleans, integer parse on strings that hold
an optionally signed decimal numeral.  On values where CPython raises
(unparseable strings, containers) the model returns the argument
unchanged; no claim below exercises those cases. -/
def pyInt : Val → Val
  | .vint n => .vint n
  | .vbool b => .vint (if b then 1 else 0)
  | .vstr s =>
      match parseIntStr (trimChars s.data) with
      | some n => .vint n
      | none => .vstr s
  | v => v

/-- Model of the Python builtin `float` on the modelled value domain.  The
domain has no separate float type (no claim depends on float semantics),
so a numeric argument keeps its integer value and anything else is
returned unchanged. -/
def pyFloat : Val → Val
  | .vint n => .vint n
  | .vbool b => .vint (if b then 1 else 0)
  | v => v

/-- The `str` coercion entry: stringify the value. -/
def pyStrConv (v : Val) : Val := .vstr (pyStr v)

/-- Model of `Osc2MqttConverter._converters.get`: the fixed table mapping
the names f/float, i/int, s/str, b/bool to coercion functions; a key not
in the table yields `none` (Python `dict.get` default).  A numeric token
can never equal a string key. -/
def convGet : Token → Option (Val → Val)
  | .name s =>
      if s == "f" || s == "float" then some pyFloat
      else if s == "i" || s == "int" then some pyInt
      else if s == "s" || s == "str" then some pyStrConv
      else if s == "b" || s == "bool" then some as_bool
      else none
  | .num _ => none

/-- Modelled from the spec: `util.parse_list` (the file `util.py` is not
part of the sources provided).  Per spec 4.1 it parses a delimited-list
string into index/name tokens: numeric tokens become integer indices,
non-numeric tokens become name references.  Modelled as a comma-separated
split with whitespace trimming and empty items dropped. -/
def parse_list (s : String) : List Token :=
  (((splitComma s.data).map trimChars).filter (fun t => !t.isEmpty)).map
    (fun t => match parseNatDigits t with
              | some n => Token.num n
              | none => Token.name (String.mk t))

/-- UTF-8 encoding of a single code point as bytes. -/
def utf8EncodeChar (c : Char) : List Nat :=
  let n := c.toNat
  if n < 0x80 then [n]
  else if n < 0x800 then [0xC0 + n / 64, 0x80 + n % 64]
  else if n < 0x10000 then
    [0xE0 + n / 4096, 0x80 + (n / 64) % 64, 0x80 + n % 64]
  else
    [0xF0 + n / 262144, 0x80 + (n / 4096) % 64, 0x80 + (n / 64) % 64,
     0x80 + n % 64]

/-- Model of Python `str.encode()` (UTF-8): concatenate the UTF-8 bytes of
each character. -/
def strEncode (s : String) : List Nat :=
  s.data.flatMap utf8EncodeChar

/-- One step of UTF-8 decoding: decode the first code point of the byte
list, returning it with the rest, or fail. -/
def utf8DecodeStep : List Nat → Except PyErr (Char × List Nat)
  | [] => .error (.unicodeDecodeError "unexpected end of data")
  | b :: rest =>
      if b < 0x80 then .ok (Char.ofNat b, rest)
      else if 0xC2 ≤ b && b < 0xE0 then
        match rest with
        | c1 :: rest' =>
            if 0x80 ≤ c1 && c1 < 0xC0 then
              .ok (Char.ofNat ((b - 0xC0) * 64 + (c1 - 0x80)), rest')
            else .error (.unicodeDecodeError "invalid continuation byte")
        | _ => .error (.unicodeDecodeError "unexpected end of data")
      else if 0xE0 ≤ b && b < 0xF0 then
        match rest with
        | c1 :: c2 :: rest' =>
            if (0x80 ≤ c1 && c1 < 0xC0) && (0x80 ≤ c2 && c2 < 0xC0) then
              .ok (Char.ofNat ((b - 0xE0) * 4096 + (c1 - 0x80) * 64 +
                    (c2 - 0x80)), rest')
            else .error (.unicodeDecodeError "invalid continuation byte")
        | _ => .error (.unicodeDecodeError "unexpected end of data")
      else if 0xF0 ≤ b && b < 0xF5 then
        match rest with
        | c1 :: c2 :: c3 :: rest' =>
            if (0x80 ≤ c1 && c1 < 0xC0) && (0x80 ≤ c2 && c2 < 0xC0)
                && (0x80 ≤ c3 && c3 < 0xC0) then
              .ok (Char.ofNat ((b - 0xF0) * 262144 + (c1 - 0x80) * 4096 +
                    (c2 - 0x80) * 64 + (c3 - 0x80)), rest')
            else .error (.unicodeDecodeError "invalid continuation byte")
        | _ => .error (.unicodeDecodeError "unexpected end of data")
      else .error (.unicodeDecodeError "invalid start byte")

/-- UTF-8 decoding with fuel (the fuel never runs out when it is at least
the byte count, since each step consumes at least one byte). -/
def utf8DecodeAux : Nat → List Nat → Except PyErr (List Char)
  | _, [] => .ok []
  | 0, _ => .error (.unicodeDecodeError "fuel exhausted")
  | fuel + 1, bs => do
      let (c, rest) ← utf8DecodeStep bs
      let cs ← utf8DecodeAux fuel rest
      .ok (c :: cs)

/-- Model of Python `bytes.decode` for UTF-8 payloads (overlong-form and
surrogate rejection are not modelled; the claims only decode ASCII). -/
def utf8Decode (bs : List Nat) : Except PyErr String := do
  let cs ← utf8DecodeAux bs.length bs
  .ok ⟨cs⟩

/-- Model of Python `bytes.decode(encoding)`.  Only the UTF-8 and ASCII
codecs are modelled; any other codec name fails the lookup (CPython raises
`LookupError` for unknown codecs; known non-UTF-8 codecs are outside the
modelled subset — no claim uses one). -/
def bytesDecode (enc : String) (bs : List Nat) : Except PyErr String :=
  if enc == "utf-8" || enc == "utf8" || enc == "UTF-8" then utf8Decode bs
  else if enc == "ascii" then
    if bs.all (· < 128) then .ok ⟨bs.map Char.ofNat⟩
    else .error (.unicodeDecodeError "ordinal not in range(128)")
  else .error (.lookupError enc)

/-- Model of `rule.format or default`: Python `or` falls back when the
left side is falsy (`None` or the empty string). -/
def formatOr (f : Option String) (d : String) : String :=
  match f with
  | none => d
  | some s => if s == "" then d else s

/-- A parsed `struct` format: byte order, native-alignment flag, and the
expanded items (a format character with its repeat count). -/
structure StructFmt where
  little : Bool
  native : Bool
  items : List (Char × Nat)
  deriving Repr, DecidableEq

/-- Signedness and standard size of the integer format characters of the
`struct` module that this model covers (`x` is handled separately as a pad
byte; float/string format characters are outside the modelled subset — no
claim uses them). -/
def structCharInfo (native : Bool) (c : Char) : Option (Bool × Nat) :=
  if c == 'b' then some (true, 1)
  else if c == 'B' then some (false, 1)
  else if c == 'h' then some (true, 2)
  else if c == 'H' then some (false, 2)
  else if c == 'i' then some (true, 4)
  else if c == 'I' then some (false, 4)
  else if c == 'l' then some (true, if native then 8 else 4)
  else if c == 'L' then some (false, if native then 8 else 4)
  else if c == 'q' then some (true, 8)
  else if c == 'Q' then some (false, 8)
  else none

/-- Parse the item part of a struct format string: optional decimal repeat
counts followed by a format character. -/
def parseStructItems (native : Bool) : Nat → List Char → Option (List (Char × Nat))
  | _, [] => some []
  | 0, _ => none
  | fuel + 1, cs =>
      let digits := cs.takeWhile (·.isDigit)
      let rest := cs.dropWhile (·.isDigit)
      let count := if digits.isEmpty then 1
                   else (parseNatDigits digits).getD 1
      match rest with
      | [] => if digits.isEmpty then some [] else none
      | c :: rest' =>
          if c == 'x' || (structCharInfo native c).isSome then
            match parseStructItems native fuel rest' with
            | some l => some ((c, count) :: l)
            | none => none
          else none

/-- Parse a struct format string: a leading byte-order character selects
order and whether native sizes/alignment apply (the model takes the native
platform little-endian with 8-byte longs, as on x86-64).  Whitespace
within format strings is not modelled (no claim uses it). -/
def parseStructFmt (f : String) : Option StructFmt :=
  let (little, native, rest) :=
    match f.data with
    | '<' :: cs => (true, false, cs)
    | '>' :: cs => (false, false, cs)
    | '!' :: cs => (false, false, cs)
    | '=' :: cs => (true, false, cs)
    | '@' :: cs => (true, true, cs)
    | cs => (true, true, cs)
  match parseStructItems native rest.length rest with
  | some items => some ⟨little, native, items⟩
  | none => none

/-- Round `off` up to a multiple of `a` (field alignment in native mode). -/
def alignTo (off a : Nat) : Nat :=
  if a == 0 then off else ((off + a - 1) / a) * a

/-- The byte size of one struct item at offset `off`, returning the new
offset past the item (native mode aligns each field to its size). -/
def structItemEnd (native : Bool) (off : Nat) (item : Char × Nat) : Nat :=
  if item.1 == 'x' then off + item.2
  else
    match structCharInfo native item.1 with
    | some (_, sz) => (if native then alignTo off sz else off) + sz * item.2
    | none => off

/-- Model of `struct.calcsize` over a parsed format. -/
def structCalcSize (fmt : StructFmt) : Nat :=
  fmt.items.foldl (structItemEnd fmt.native) 0

/-- Combine a little-endian byte list into an unsigned value. -/
def leVal (bs : List Nat) : Nat :=
  bs.foldr (fun b acc => b + 256 * acc) 0

/-- Read one fixed-width integer of `sz` bytes at `off` from `data`,
little- or big-endian, reinterpreting as signed two's complement when
`signed`. -/
def readStructInt (little signed : Bool) (data : List Nat) (off sz : Nat) : Val :=
  let bs := (data.drop off).take sz
  let u := if little then leVal bs else leVal bs.reverse
  if signed && u ≥ 2 ^ (8 * sz - 1) then
    .vint ((u : Int) - 2 ^ (8 * sz))
  else
    .vint u

/-- Unpack the items of a parsed struct format from `data` starting at
offset `off` (bounds were already checked against `calcsize`). -/
def structReadItems (little native : Bool) (data : List Nat) :
    List (Char × Nat) → Nat → List Val
  | [], _ => []
  | (c, count) :: items, off =>
      if c == 'x' then structReadItems little native data items (off + count)
      else
        match structCharInfo native c with
        | some (signed, sz) =>
            let start := if native then alignTo off sz else off
            let vals := (List.range count).map
              (fun k => readStructInt little signed data (start + sz * k) sz)
            vals ++ structReadItems little native data items (start + sz * count)
        | none => structReadItems little native data items off

/-- Model of `struct.unpack_from(format, data)` (offset 0): fails when the
format does not parse or when the buffer holds fewer bytes than
`calcsize(format)`; extra trailing bytes are accepted and ignored. -/
def structUnpackFrom (f : String) (data : List Nat) : Except PyErr (List Val) :=
  match parseStructFmt f with
  | none => .error (.structError "bad char in struct format")
  | some fmt =>
      let size := structCalcSize fmt
      if data.length < size then
        .error (.structError
          ("unpack_from requires a buffer of at least " ++ toString size ++
            " bytes"))
      else
        .ok (structReadItems fmt.little fmt.native data fmt.items 0)

/-- Emit `sz` little-endian bytes of the unsigned value `n`. -/
def natLeBytes : Nat → Nat → List Nat
  | _, 0 => []
  | n, sz + 1 => n % 256 :: natLeBytes (n / 256) sz

/-- Pack one integer value as `sz` bytes with the requested order and
signedness, checking the Python range check of `struct.pack`. -/
def packStructInt (little signed : Bool) (sz : Nat) (v : Val) : Except PyErr (List Nat) :=
  match v with
  | .vint n =>
      let lo : Int := if signed then -(2 ^ (8 * sz - 1)) else 0
      let hi : Int := if signed then 2 ^ (8 * sz - 1) else 2 ^ (8 * sz)
      if lo ≤ n && n < hi then
        let u : Nat := (n % (2 ^ (8 * sz) : Int)).toNat
        let bs := natLeBytes u sz
        .ok (if little then bs else bs.reverse)
      else .error (.structError "argument out of range")
  | .vbool b =>
      let n : Int := if b then 1 else 0
      let lo : Int := if signed then -(2 ^ (8 * sz - 1)) else 0
      let hi : Int := if signed then 2 ^ (8 * sz - 1) else 2 ^ (8 * sz)
      if lo ≤ n && n < hi then
        let u : Nat := (n % (2 ^ (8 * sz) : Int)).toNat
        let bs := natLeBytes u sz
        .ok (if little then bs else bs.reverse)
      else .error (.structError "argument out of range")
  | _ => .error (.structError "required argument is not an integer")

/-- Pack the items of a parsed struct format, consuming values. -/
def packStructItems (little native : Bool) :
    List (Char × Nat) → Nat → List Val → Except PyErr (List Nat)
  | [], _, [] => .ok []
  | [], _, _ :: _ => .error (.structError "pack expected fewer arguments")
  | (c, count) :: items, off, vals =>
      if c == 'x' then do
        let rest ← packStructItems little native items (off + count) vals
        .ok (List.replicate count 0 ++ rest)
      else
        match structCharInfo native c with
        | some (signed, sz) =>
            let start := if native then alignTo off sz else off
            let pad := List.replicate (start - off) 0
            if vals.length < count then
              .error (.structError "pack expected more arguments")
            else do
              let here ← (vals.take count).mapM (packStructInt little signed sz)
              let rest ← packStructItems little native items
                (start + sz * count) (vals.drop count)
              .ok (pad ++ here.flatten ++ rest)
        | none => packStructItems little native items off vals

/-- Model of `struct.pack(format, *values)`. -/
def structPack (f : String) (vals : List Val) : Except PyErr (List Nat) :=
  match parseStructFmt f with
  | none => .error (.structError "bad char in struct format")
  | some fmt => packStructItems fmt.little fmt.native fmt.items 0 vals

/-- Item size of the integer typecodes of the `array` module (native
sizes, x86-64).  Float/unicode typecodes are outside the modelled subset —
no claim uses them. -/
def arrayItemSize (c : Char) : Option (Bool × Nat) :=
  if c == 'b' then some (true, 1)
  else if c == 'B' then some (false, 1)
  else if c == 'h' then some (true, 2)
  else if c == 'H' then some (false, 2)
  else if c == 'i' then some (true, 4)
  else if c == 'I' then some (false, 4)
  else if c == 'l' then some (true, 8)
  else if c == 'L' then some (false, 8)
  else if c == 'q' then some (true, 8)
  else if c == 'Q' then some (false, 8)
  else none

/-- Model of `tuple(array.array(typecode, data))`: reinterpret the byte
string as a homogeneous sequence of native-endian machine integers.  The
typecode must be a single known character and the byte length a multiple
of the item size. -/
def arrayFromBytes (tc : String) (data : List Nat) : Except PyErr (List Val) :=
  match tc.data with
  | [c] =>
      match arrayItemSize c with
      | some (signed, sz) =>
          if data.length % sz == 0 then
            .ok ((List.range (data.length / sz)).map
              (fun k => readStructInt true signed data (sz * k) sz))
          else .error (.valueError "bytes length not a multiple of item size")
      | none => .error (.valueError "bad typecode (must be b, B, u, h, H, i, I, l, L, q, Q, f or d)")
  | _ => .error (.typeError "array() argument 1 must be a unicode character, not str")

mutual

/-- Model of `json.dumps` with default separators: integers, booleans,
null, strings (escape handling not modelled — the claims serialize
escape-free strings), and tuples/lists as JSON arrays separated by a
comma and a space.  Byte strings are not JSON serializable.  The result
is a Python text string. -/
def jsonDumps : Val → Except PyErr String
  | .vint n => .ok (toString n)
  | .vbool b => .ok (if b then "true" else "false")
  | .vnull => .ok "null"
  | .vstr s => .ok ("\"" ++ s ++ "\"")
  | .vtuple xs => do
      let ss ← jsonDumpsList xs
      .ok ("[" ++ String.intercalate ", " ss ++ "]")
  | .vlist xs => do
      let ss ← jsonDumpsList xs
      .ok ("[" ++ String.intercalate ", " ss ++ "]")
  | .vbytes _ => .error (.typeError "Object of type bytes is not JSON serializable")

def jsonDumpsList : List Val → Except PyErr (List String)
  | [] => .ok []
  | v :: vs => do
      let s ← jsonDumps v
      let ss ← jsonDumpsList vs
      .ok (s :: ss)

end

/-- Parse a decimal natural number (a following dot or exponent would make
a float, which is outside the modelled subset). -/
def jsonParseNat (cs : List Char) : Option (Nat × List Char) :=
  let digits := cs.takeWhile (·.isDigit)
  let rest := cs.dropWhile (·.isDigit)
  if digits.isEmpty then none
  else
    match rest with
    | '.' :: _ => none
    | 'e' :: _ => none
    | 'E' :: _ => none
    | _ =>
        match parseNatDigits digits with
        | some n => some (n, rest)
        | none => none

/-- Drop leading JSON whitespace. -/
def jsonSkipWs (cs : List Char) : List Char :=
  cs.dropWhile (fun c => c == ' ' || c == '\t' || c == '\n' || c == '\r')

mutual

/-- Model of the JSON parser behind `json.loads`, restricted to the
grammar the claims exercise: null, true, false, optionally signed decimal
integers, escape-free strings, and arrays; objects and floats are outside
the modelled subset.  Parses one value, returning it with the rest of the
input. -/
def jsonParse : Nat → List Char → Except PyErr (Val × List Char)
  | 0, _ => .error (.jsonDecodeError "fuel exhausted")
  | fuel + 1, cs =>
      match jsonSkipWs cs with
      | 'n' :: 'u' :: 'l' :: 'l' :: rest => .ok (.vnull, rest)
      | 't' :: 'r' :: 'u' :: 'e' :: rest => .ok (.vbool true, rest)
      | 'f' :: 'a' :: 'l' :: 's' :: 'e' :: rest => .ok (.vbool false, rest)
      | '"' :: rest =>
          let body := rest.takeWhile (· ≠ '"')
          match rest.dropWhile (· ≠ '"') with
          | '"' :: rest' => .ok (.vstr (String.mk body), rest')
          | _ => .error (.jsonDecodeError "unterminated string")
      | '[' :: rest =>
          (match jsonSkipWs rest with
           | ']' :: rest' => .ok (.vlist [], rest')
           | _ => do
               let (items, rest') ← jsonParseItems fuel rest
               .ok (.vlist items, rest'))
      | '-' :: rest =>
          (match jsonParseNat rest with
           | some (n, rest') => .ok (.vint (-(n : Int)), rest')
           | none => .error (.jsonDecodeError "expecting value"))
      | c :: rest =>
          if c.isDigit then
            match jsonParseNat (c :: rest) with
            | some (n, rest') => .ok (.vint n, rest')
            | none => .error (.jsonDecodeError "expecting value")
          else .error (.jsonDecodeError "expecting value")
      | [] => .error (.jsonDecodeError "expecting value")

/-- Parse the comma-separated items of a JSON array up to the closing
bracket. -/
def jsonParseItems : Nat → List Char → Except PyErr (List Val × List Char)
  | 0, _ => .error (.jsonDecodeError "fuel exhausted")
  | fuel + 1, cs => do
      let (v, rest) ← jsonParse fuel cs
      match jsonSkipWs rest with
      | ',' :: rest' => do
          let (vs, rest'') ← jsonParseItems fuel rest'
          .ok (v :: vs, rest'')
      | ']' :: rest' => .ok ([v], rest')
      | _ => .error (.jsonDecodeError "expecting comma or close bracket")

end

/-- Model of `json.loads`: parse one JSON value and require only
whitespace after it. -/
def jsonLoads (s : String) : Except PyErr Val := do
  let (v, rest) ← jsonParse (s.data.length + 1) s.data
  if (jsonSkipWs rest).isEmpty then .ok v
  else .error (.jsonDecodeError "extra data")

/-- Interpret one replacement-field name of a format string: an all-digit
name indexes the positional arguments, anything else is looked up among
the keyword arguments; the substituted text is the `str` of the value
(an empty format spec).  Attribute/index access, conversion flags,
explicit format specs, and auto-numbering are outside the modelled subset
— no template in the program or the claims uses them. -/
def formatField (field : List Char) (pos : List String)
    (kw : List (String × Val)) : Except PyErr String :=
  if field.isEmpty then
    .error (.valueError "auto numbering not modelled")
  else if field.any (fun c => c == ':' || c == '!' || c == '.' || c == '[') then
    .error (.valueError "format specs not modelled")
  else if field.all (·.isDigit) then
    match parseNatDigits field with
    | some idx =>
        match pos.get? idx with
        | some s => .ok s
        | none => .error (.indexError "Replacement index out of range for positional args tuple")
    | none => .error (.indexError "bad index")
  else
    match kw.lookup (String.mk field) with
    | some v => .ok (pyStr v)
    | none => .error (.keyError (String.mk field))

/-- Model of Python `str.format` restricted to plain replacement fields,
with fuel (the fuel never runs out when it is at least the character
count). -/
def pyFormatAux : Nat → List Char → List String → List (String × Val) →
    Except PyErr String
  | _, [], _, _ => .ok ""
  | 0, _, _, _ => .error (.valueError "fuel exhausted")
  | fuel + 1, cs, pos, kw =>
      match cs with
      | [] => .ok ""
      | '{' :: '{' :: rest => do
          let s ← pyFormatAux fuel rest pos kw
          .ok ("\x7b" ++ s)
      | '}' :: '}' :: rest => do
          let s ← pyFormatAux fuel rest pos kw
          .ok ("\x7d" ++ s)
      | '}' :: _ => .error (.valueError "Single closing brace encountered in format string")
      | '{' :: rest =>
          let field := rest.takeWhile (· ≠ '}')
          (match rest.dropWhile (· ≠ '}') with
           | '}' :: rest' => do
               let sub ← formatField field pos kw
               let s ← pyFormatAux fuel rest' pos kw
               .ok (sub ++ s)
           | _ => .error (.valueError "expected closing brace before end of string"))
      | c :: rest => do
          let s ← pyFormatAux fuel rest pos kw
          .ok (c.toString ++ s)

/-- Model of `template.format(*pos, **kw)` where the template object may be
`None` (attribute access on `None` raises). -/
def pyFormatT (tmpl : Option String) (pos : List String)
    (kw : List (String × Val)) : Except PyErr String :=
  match tmpl with
  | none => .error (.attrError "NoneType object has no attribute format")
  | some t => pyFormatAux (t.data.length + 1) t.data pos kw

/-- Model of a Python `re` match object: the full matched text, the
positional capture groups 1.. (each `none` when the group did not
participate), and the named capture groups. -/
structure MatchRes where
  full : String
  groups : List (Option String)
  named : List (String × Option String)
  deriving Repr, DecidableEq

/-- The semantics of `re.search` for the patterns of a rule set, supplied
as an explicit function from pattern string and subject to an optional
match: the regular-expression engine is an external library. -/
abbrev SearchFn : Type := String → String → Option MatchRes

/-- `match.group(token)` for a single index or name token: index 0 is the
full match, positive indices address the capture groups, names address the
named groups; a nonexistent group raises. -/
def matchGroup1 (m : MatchRes) : Token → Except PyErr (Option String)
  | .num 0 => .ok (some m.full)
  | .num (i + 1) =>
      match m.groups.get? i with
      | some g => .ok g
      | none => .error (.indexError "no such group")
  | .name s =>
      match m.named.lookup s with
      | some g => .ok g
      | none => .error (.indexError "no such group")

/-- `match.group(*tokens)`: the captures of every listed group (the source
normalizes the one-token and many-token shapes to the same list). -/
def matchGroupStar (m : MatchRes) (toks : List Token) :
    Except PyErr (List (Option String)) :=
  toks.mapM (matchGroup1 m)

/-- `match.groups(default)` with the empty-string default: every
positional capture, unmatched groups as the empty string. -/
def matchGroupsD (m : MatchRes) : List String :=
  m.groups.map (·.getD "")

/-- `match.groupdict(default)` with the empty-string default. -/
def matchGroupdictD (m : MatchRes) : List (String × String) :=
  m.named.map (fun p => (p.1, p.2.getD ""))

/-- A compiled conversion rule, mirroring the `ConversionRule` namedtuple:
`match`, `address`, `topic`, `type`, `format` and `osctags` hold whatever
the raw mapping held (a string or `None`); `address_groups`/`topic_groups`
hold parsed token lists and `from_mqtt`/`from_osc` hold resolved converter
lists when the raw field was set. -/
structure ConversionRule where
  «match» : Option String
  address : Option String
  topic : Option String
  address_groups : Option (List Token)
  topic_groups : Option (List Token)
  type : Option String
  format : Option String
  from_mqtt : Option (List (Option (Val → Val)))
  from_osc : Option (List (Option (Val → Val)))
  osctags : Option String

/-- Python truthiness of an optional token list (`None` and the empty list
are falsy). -/
def truthyList (l : Option (List Token)) : Bool :=
  match l with
  | none => false
  | some l => !l.isEmpty

/-- Python truthiness of an optional string (`None` and the empty string
are falsy). -/
def truthyStr (s : Option String) : Bool :=
  match s with
  | none => false
  | some s => s != ""

/-- The `rule.from_mqtt not in (None, '')` test of the source on a
compiled rule: a converter list never equals `None` or the empty string,
so the test is simply presence. -/
def truthyConvList (l : Option (List (Option (Val → Val)))) : Bool :=
  l.isSome

/-- A compiled rule set: name/rule pairs in declaration order (the
insertion order of the `self.rules` dict). -/
abbrev RuleList : Type := List (String × ConversionRule)

/-- A raw rule definition: the field mapping as read from configuration,
each value a string or `None` (`dict` modelled as an association list with
unique keys). -/
abbrev RawRule : Type := List (String × Option String)

/-- `rule[key]` on a raw rule dict: `KeyError` when the key is absent. -/
def rawGet (raw : RawRule) (k : String) : Except PyErr (Option String) :=
  match raw.lookup k with
  | some v => .ok v
  | none => .error (.keyError k)

/-- The ten field names of the `ConversionRule` namedtuple, in declaration
order. -/
def ruleFieldNames : List String :=
  ["match", "address", "topic", "address_groups", "topic_groups",
   "type", "format", "from_mqtt", "from_osc", "osctags"]

/-- The `ConversionRule(**rule)` keyword check: construction succeeds
exactly when the dict's keys are the ten field names, each once. -/
def ruleKeysOk (raw : RawRule) : Bool :=
  (ruleFieldNames.all (fun k => (raw.map (·.1)).count k == 1)) &&
    ((raw.map (·.1)).all (· ∈ ruleFieldNames))

/-- Model of `str(exc)` for the exceptions that rule compilation can
wrap: `KeyError` shows the quoted key, the others show their message. -/
def pyErrMsg : PyErr → String
  | .keyError k => "\x27" ++ k ++ "\x27"
  | .typeError m => m
  | .valueError m => m
  | .indexError m => m
  | .attrError m => m
  | .unboundLocal n => "local variable \x27" ++ n ++ "\x27 referenced before assignment"
  | .structError m => m
  | .jsonDecodeError m => m
  | .unicodeDecodeError m => m
  | .lookupError m => "unknown encoding: " ++ m
  | .configError m => m

/-- `Osc2MqttConverter.__init__` processing of a single raw rule, in
source order: look up and resolve `from_mqtt` and `from_osc` through the
converter table, parse `address_groups` and `topic_groups`, then construct
the `ConversionRule` namedtuple (whose keyword check requires exactly the
ten field names). -/
def compileRule (raw : RawRule) : Except PyErr ConversionRule := do
  let fm ← rawGet raw "from_mqtt"
  let fmC := fm.map (fun s => (parse_list s).map convGet)
  let fo ← rawGet raw "from_osc"
  let foC := fo.map (fun s => (parse_list s).map convGet)
  let ag ← rawGet raw "address_groups"
  let agC := ag.map parse_list
  let tg ← rawGet raw "topic_groups"
  let tgC := tg.map parse_list
  if ruleKeysOk raw then do
    let m ← rawGet raw "match"
    let a ← rawGet raw "address"
    let t ← rawGet raw "topic"
    let ty ← rawGet raw "type"
    let fmt ← rawGet raw "format"
    let tags ← rawGet raw "osctags"
    .ok { «match» := m, address := a, topic := t,
          address_groups := agC, topic_groups := tgC,
          type := ty, format := fmt,
          from_mqtt := fmC, from_osc := foC, osctags := tags }
  else
    .error (.typeError "ConversionRule() keyword arguments do not match the field names")

/-- `Osc2MqttConverter.__init__` over the whole ordered rule mapping: each
rule is compiled in declaration order; the first failure is wrapped in a
`ConfigError` carrying the underlying exception text, aborting
construction (the caller receives no rule set). -/
def compileRules (rules : List (String × RawRule)) :
    Except PyErr RuleList :=
  match rules with
  | [] => .ok []
  | (nm, raw) :: rest =>
      match compileRule raw with
      | .ok r =>
          match compileRules rest with
          | .ok rs => .ok ((nm, r) :: rs)
          | .error e => .error e
      | .error e =>
          .error (.configError ("Malformed conversion rule: " ++ pyErrMsg e))

/-- `Osc2MqttConverter.match_rule`: scan the rules in declaration order,
run each pattern as a search against the identifier, and return the first
rule together with its match; fall off the end (Python returns `None`)
when no rule matches.  A rule whose pattern is `None` makes `re.search`
raise. -/
def match_rule (search : SearchFn) (rules : RuleList) (topicoraddr : String) :
    Except PyErr (Option (ConversionRule × MatchRes)) :=
  match rules with
  | [] => .ok none
  | (_, rule) :: rest =>
      match rule.«match» with
      | none => .error (.typeError "first argument must be string or compiled pattern")
      | some pat =>
          match search pat topicoraddr with
          | some m => .ok (some (rule, m))
          | none => match_rule search rest topicoraddr

/-- Python iteration over a modelled value: tuples and lists yield their
elements, strings their characters, byte strings their byte values;
anything else is not iterable. -/
def pyIter : Val → Except PyErr (List Val)
  | .vtuple xs => .ok xs
  | .vlist xs => .ok xs
  | .vstr s => .ok (s.data.map (fun c => .vstr c.toString))
  | .vbytes bs => .ok (bs.map (fun b => .vint b))
  | _ => .error (.typeError "object is not iterable")

/-- `len(value)` for the sized values. -/
def pyLen : Val → Except PyErr Nat
  | .vtuple xs => .ok xs.length
  | .vlist xs => .ok xs.length
  | .vstr s => .ok s.length
  | .vbytes bs => .ok bs.length
  | _ => .error (.typeError "object has no len")

/-- `value[0]` for the sized values. -/
def pyItem0 : Val → Except PyErr Val
  | .vtuple (x :: _) => .ok x
  | .vlist (x :: _) => .ok x
  | .vstr s =>
      match s.data with
      | c :: _ => .ok (.vstr c.toString)
      | [] => .error (.indexError "string index out of range")
  | .vbytes (b :: _) => .ok (.vint b)
  | .vtuple [] => .error (.indexError "tuple index out of range")
  | .vlist [] => .error (.indexError "list index out of range")
  | .vbytes [] => .error (.indexError "index out of range")
  | _ => .error (.typeError "object is not subscriptable")

/-- `values + extra` where `extra` is a Python list: list concatenation;
concatenating a list onto any other type raises. -/
def pyAddList (v : Val) (extra : List Val) : Except PyErr Val :=
  match v with
  | .vlist xs => .ok (.vlist (xs ++ extra))
  | _ => .error (.typeError "can only concatenate the same sequence type")

/-- A captured group as a value: the string, or `None` when the group did
not participate in the match. -/
def optStrToVal (o : Option String) : Val :=
  match o with
  | some s => .vstr s
  | none => .vnull

/-- Apply one optional converter as the source's
`func(value) if func else value`. -/
def convApply (f : Option (Val → Val)) (v : Val) : Val :=
  match f with
  | some g => g v
  | none => v

/-- `Osc2MqttConverter.convert_mqtt_values`:
`tuple(func(value) if func else value for func, value in zip(converters, values))`. -/
def convert_mqtt_values (converters : List (Option (Val → Val)))
    (values : Val) : Except PyErr Val := do
  let vs ← pyIter values
  .ok (.vtuple (List.zipWith convApply converters vs))

/-- `Osc2MqttConverter.convert_osc_values`: textually the same
comprehension as `convert_mqtt_values`. -/
def convert_osc_values (converters : List (Option (Val → Val)))
    (values : Val) : Except PyErr Val := do
  let vs ← pyIter values
  .ok (.vtuple (List.zipWith convApply converters vs))

/-- `Osc2MqttConverter.decode_values`: dispatch on `rule.type` to the
JSON, struct, array, string, or raw codec. -/
def decode_values (data : List Nat) (rule : ConversionRule) :
    Except PyErr Val :=
  if rule.type == some "json" then do
    let s ← bytesDecode (formatOr rule.format "utf-8") data
    jsonLoads s
  else if rule.type == some "struct" then
    match rule.format with
    | none => .error (.typeError "Struct() argument 1 must be a str or bytes object")
    | some f => do
        let vs ← structUnpackFrom f data
        .ok (.vtuple vs)
  else if rule.type == some "array" then
    match rule.format with
    | none => .error (.typeError "array() argument 1 must be a unicode character, not None")
    | some f => do
        let vs ← arrayFromBytes f data
        .ok (.vtuple vs)
  else if rule.type == some "string" then do
    let s ← bytesDecode (formatOr rule.format "utf-8") data
    .ok (.vtuple [.vstr s])
  else
    .ok (.vtuple [.vbytes data])

/-- `Osc2MqttConverter.encode_values`.  The source's third branch reads
`elif type == 'array':`, comparing the *builtin* `type` function with a
string — that comparison is always false, so the branch is dead and values
of an `array`-typed rule fall through to the later branches; the model
therefore has no array branch. -/
def encode_values (values : Val) (rule : ConversionRule) :
    Except PyErr Val :=
  if rule.type == some "json" then do
    let s ← jsonDumps values
    .ok (.vstr s)
  else if rule.type == some "struct" then
    match rule.format with
    | none => .error (.typeError "Struct() argument 1 must be a str or bytes object")
    | some f => do
        let vs ← pyIter values
        let bs ← structPack f vs
        .ok (.vbytes bs)
  else if rule.type == some "string" then do
    let vs ← pyIter values
    .ok (.vstr (String.join (vs.map pyStr)))
  else do
    let n ← pyLen values
    if n == 1 then do
      let v0 ← pyItem0 values
      .ok (.vbytes (strEncode (pyStr v0)))
    else
      .ok (.vbytes (strEncode (pyStr values)))

/-- The `tuple(zip(rule.osctags, values))` pairing: the tag string's
characters zipped with the values. -/
def osctagPair (tags : String) (values : Val) : Except PyErr Val := do
  let vs ← pyIter values
  .ok (.vtuple (List.zipWith
    (fun c v => Val.vtuple [.vstr c.toString, v]) tags.data vs))

/-- The group-append step shared by both directions (executed correctly
only in `from_osc`; `from_mqtt` hits it before `values` is bound): when
the group list is truthy, capture the listed groups and concatenate them
onto the value list. -/
def appendGroups (m : MatchRes) (groups : Option (List Token)) (values : Val) :
    Except PyErr Val :=
  if truthyList groups then do
    let extra ← matchGroupStar m (groups.getD [])
    pyAddList values (extra.map optStrToVal)
  else .ok values

/-- The keyword-argument dict passed to template rendering:
`match.groupdict('')` with `kwargs[_values] = values` (dict assignment
overwrites any named group of the same name). -/
def mkKwargs (m : MatchRes) (values : Val) : List (String × Val) :=
  ((matchGroupdictD m).map (fun p => (p.1, Val.vstr p.2))).filter
      (fun p => p.1 != "_values")
    ++ [("_values", values)]

/-- `Osc2MqttConverter.from_mqtt`.  The source's topic-group branch reads
the local `values` on its right-hand side (`values = values + extra_values`)
before `values` is first assigned two lines later, so whenever
`rule.topic_groups` is truthy the call raises `UnboundLocalError` right
after capturing the groups. -/
def from_mqtt (search : SearchFn) (rules : RuleList) (topic : String)
    (payload : List Nat) : Except PyErr (Option (String × Val)) := do
  match ← match_rule search rules topic with
  | none => .ok none
  | some (rule, m) =>
      if truthyList rule.topic_groups then do
        let _extra ← matchGroupStar m (rule.topic_groups.getD [])
        .error (.unboundLocal "values")
      else do
        let values ← decode_values payload rule
        let addr_kwargs := mkKwargs m values
        let values ← if truthyConvList rule.from_mqtt then
            convert_mqtt_values (rule.from_mqtt.getD []) values
          else .ok values
        let values ← if truthyStr rule.osctags then
            osctagPair (rule.osctags.getD "") values
          else .ok values
        let addr ← pyFormatT rule.address (matchGroupsD m) addr_kwargs
        .ok (some (addr, values))

/-- `Osc2MqttConverter.from_osc`: match the address, append
`address_groups` captures to the values, bind the keyword dict (with the
value sequence as it stands *now*), coerce via `from_osc`, render the
topic, encode the payload. -/
def from_osc (search : SearchFn) (rules : RuleList) (addr : String)
    (values : Val) : Except PyErr (Option (String × Val)) := do
  match ← match_rule search rules addr with
  | none => .ok none
  | some (rule, m) => do
      let values ← appendGroups m rule.address_groups values
      let topic_kwargs := mkKwargs m values
      let values ← if truthyConvList rule.from_osc then
          convert_osc_values (rule.from_osc.getD []) values
        else .ok values
      let topic ← pyFormatT rule.topic (matchGroupsD m) topic_kwargs
      let data ← encode_values values rule
      .ok (some (topic, data))

/-- Whether `needle` occurs as a contiguous substring of `hay`. -/
def occursIn (needle hay : String) : Bool :=
  (List.range (hay.data.length + 1)).any
    (fun i => needle.data.isPrefixOf (hay.data.drop i))

/-- Build a raw rule dict holding exactly the ten `ConversionRule` field
names in declaration order. -/
def mkRawRule (m a t ag tg ty fmt fm fo tags : Option String) : RawRule :=
  [("match", m), ("address", a), ("topic", t), ("address_groups", ag),
   ("topic_groups", tg), ("type", ty), ("format", fmt), ("from_mqtt", fm),
   ("from_osc", fo), ("osctags", tags)]

/-- The key set of the `_converters` table. -/
def convKeys : List String :=
  ["f", "float", "i", "int", "s", "str", "b", "bool"]

/-- A minimal compiled rule used as the base of the concrete fixtures:
pattern `p`, address `/a`, topic `t`, every optional feature off, raw
payload type. -/
def baseRule : ConversionRule :=
  { «match» := some "p", address := some "/a", topic := some "t",
    address_groups := none, topic_groups := none,
    type := none, format := none,
    from_mqtt := none, from_osc := none, osctags := none }

/-- Fixture for the inbound-from-pubsub direction: a rule whose
`topic_groups` names capture group 1. -/
def ruleC1 : ConversionRule := { baseRule with topic_groups := some [Token.num 1] }

/-- A search semantics matching pattern `p` against subject `dev/7` with
one capture. -/
def searchC1 : SearchFn := fun pat s =>
  if pat == "p" && s == "dev/7" then
    some { full := "dev/7", groups := [some "7"], named := [] }
  else none

/-- Fixture rule of type `array` with a one-byte unsigned element format. -/
def ruleC3 : ConversionRule :=
  { baseRule with type := some "array", format := some "B" }

/-- Fixture rule of type `json` with UTF-8 text format. -/
def ruleC4 : ConversionRule :=
  { baseRule with type := some "json", format := some "utf-8" }

/-- Fixture rule of type `struct` with the one-byte unsigned layout `B`. -/
def ruleC5 : ConversionRule :=
  { baseRule with type := some "struct", format := some "B" }

/-- The parse of the struct format string `B`: native mode, one unsigned
byte. -/
def sfB : StructFmt := ⟨true, true, [('B', 1)]⟩

/-- Two fixture rules for first-match-wins: both would match the same
subject under `searchC6`. -/
def ruleC6A : ConversionRule := { baseRule with «match» := some "a" }

/-- The later-declared of the two first-match-wins fixture rules. -/
def ruleC6B : ConversionRule := { baseRule with «match» := some "b" }

/-- An empty match result on subject `t`. -/
def mC6 : MatchRes := { full := "t", groups := [], named := [] }

/-- A search semantics under which pattern `b` matches subject `t` and
pattern `a` does not. -/
def searchC6 : SearchFn := fun pat s =>
  if pat == "b" && s == "t" then some mC6 else none

/-- Fixture for the outbound direction: topic template interpolating only
the value sequence, with an integer coercion on the first value. -/
def ruleC7 : ConversionRule :=
  { baseRule with topic := some "\x7b_values\x7d",
                  from_osc := some [some pyInt] }

/-- A search semantics matching pattern `p` against subject `t` with no
captures. -/
def searchC7 : SearchFn := fun pat s =>
  if pat == "p" && s == "t" then some mC6 else none

/-- A structurally malformed raw rule: the `from_mqtt` key (the first one
the compiler reads) is absent. -/
def badRawC8 : RawRule := [("match", some "x")]

/-- A well-formed raw rule holding all ten fields, compiled successfully
ahead of the malformed one in the C8 witness. -/
def goodRawC8 : RawRule :=
  mkRawRule (some "^/?(.*)") (some "/x") (some "y") none none
    (some "struct") (some "B") none none none

/-- C1: the claim says that with `topic_groups` set the captured group
strings are appended to the payload-decoded values and that the call
completes without referencing an undefined value sequence.  The source
instead reads the local `values` before its first assignment
(`values = values + extra_values` precedes `values = self.decode_values(...)`),
so the matched call raises `UnboundLocalError` — here evaluated at a
concrete rule whose `topic_groups` names group 1 and a matching topic. -/
theorem c1_from_mqtt_topic_groups_unbound :
    from_mqtt searchC1 [("r", ruleC1)] "dev/7" [49] =
      .error (.unboundLocal "values") := rfl

/-- C2 counterexample: the claim says values past the converter list's
length appear unchanged in the result; with the one-entry converter list
`[None]` and the two values `(1, 5)` the source's `zip` truncates, so the
result is `(1,)` and not `(1, 5)`. -/
theorem c2_trailing_values_dropped_counterexample :
    convert_mqtt_values [none] (Val.vtuple [Val.vint 1, Val.vint 5]) ≠
      Except.ok (Val.vtuple [Val.vint 1, Val.vint 5]) := by
  have h : convert_mqtt_values [none] (Val.vtuple [Val.vint 1, Val.vint 5]) =
      Except.ok (Val.vtuple [Val.vint 1]) := rfl
  rw [h]
  intro hc
  injection hc with hv
  exact absurd hv (by decide)

/-- C2 amended: coercion zips the converter list with the values —
position i becomes `converters[i](values[i])` when a converter exists
there and stays `values[i]` otherwise — and the result is truncated to
the shorter of the two lengths: a longer converter list has its extra
entries ignored, but a longer value sequence has its trailing values
dropped, not passed through. -/
theorem c2_coercion_zip_truncates (c : List (Option (Val → Val)))
    (vs : List Val) :
    convert_mqtt_values c (Val.vtuple vs) =
      .ok (.vtuple (List.zipWith convApply c vs)) ∧
    (List.zipWith convApply c vs).length = min c.length vs.length :=
  ⟨rfl, List.length_zipWith _ _ _⟩

/-- C3: the claim says an `array`-typed rule packs values per the format's
element type.  The source's branch reads `elif type == 'array':`,
comparing the builtin `type` with a string, which is never true; the
values of this `array`/`B` rule therefore fall through to the default
stringify branch, producing the UTF-8 bytes of `str((1, 2))` — the text
`(1, 2)` — instead of the packed bytes `[1, 2]`. -/
theorem c3_array_encode_falls_through :
    encode_values (Val.vtuple [Val.vint 1, Val.vint 2]) ruleC3 =
      .ok (.vbytes [40, 49, 44, 32, 50, 41]) ∧
    strEncode "(1, 2)" = [40, 49, 44, 32, 50, 41] := ⟨rfl, rfl⟩

/-- C4 counterexample: the claim says encoding `[1,2,3]` under a `json`
rule yields exactly the byte string `b'[1,2,3]'`; the source returns
`json.dumps(values)` — a text string, and with comma-space separators —
so the result is not that byte string. -/
theorem c4_json_encode_counterexample :
    encode_values (Val.vtuple [.vint 1, .vint 2, .vint 3]) ruleC4 ≠
      .ok (.vbytes (strEncode "[1,2,3]")) := by
  have h : encode_values (Val.vtuple [.vint 1, .vint 2, .vint 3]) ruleC4 =
      .ok (.vstr "[1, 2, 3]") := rfl
  rw [h]
  intro hc
  injection hc with hv
  exact absurd hv (by decide)

/-- C4 amended: under a `json` rule, decode of the byte string `[1,2,3]`
with format utf-8 returns the list `[1,2,3]`, and encode of the value
sequence `(1,2,3)` returns the JSON text as a text string `[1, 2, 3]`
(with comma-space separators), not a byte string. -/
theorem c4_json_codec_amended :
    decode_values (strEncode "[1,2,3]") ruleC4 =
      .ok (.vlist [.vint 1, .vint 2, .vint 3]) ∧
    encode_values (Val.vtuple [.vint 1, .vint 2, .vint 3]) ruleC4 =
      .ok (.vstr "[1, 2, 3]") := ⟨rfl, rfl⟩

/-- C5 counterexample: the claim says a `struct` payload longer than the
layout's required size is rejected; the source uses `struct.unpack_from`,
which accepts a longer buffer — the two-byte payload `[1, 2]` against the
one-byte layout `B` decodes successfully to `(1,)`. -/
theorem c5_longer_payload_accepted_counterexample :
    parseStructFmt "B" = some sfB ∧ structCalcSize sfB = 1 ∧
    decode_values [1, 2] ruleC5 = .ok (.vtuple [.vint 1]) := ⟨rfl, rfl, rfl⟩

/-- C5 amended: for a `struct`-typed rule whose format parses, decoding
fails with a struct error if and only if the payload is shorter than the
layout's required size; payloads of the required size or longer are
accepted (trailing bytes ignored). -/
theorem c5_struct_decode_length_amended (rule : ConversionRule) (f : String)
    (sf : StructFmt) (data : List Nat)
    (h1 : rule.type = some "struct") (h2 : rule.format = some f)
    (h3 : parseStructFmt f = some sf) :
    (∃ v, decode_values data rule = .ok v) ↔
      structCalcSize sf ≤ data.length := by
  have hb : decode_values data rule =
      (if data.length < structCalcSize sf then
        .error (.structError ("unpack_from requires a buffer of at least " ++
          toString (structCalcSize sf) ++ " bytes"))
      else .ok (.vtuple (structReadItems sf.little sf.native data sf.items 0))) := by
    simp [decode_values, h1, h2, structUnpackFrom, h3]
    split <;> rfl
  rw [hb]
  by_cases hlt : data.length < structCalcSize sf
  · simp only [if_pos hlt]
    constructor
    · rintro ⟨v, hv⟩; exact absurd hv (by simp)
    · intro hle; omega
  · simp only [if_neg hlt]
    constructor
    · intro _; omega
    · intro _; exact ⟨_, rfl⟩

/-- C5 witness: the amended theorem applied to the one-byte unsigned
layout `B` and the two-byte payload `[5, 6]`. -/
theorem c5_struct_decode_length_amended_witness :
    (∃ v, decode_values [5, 6] ruleC5 = .ok v) ↔
      structCalcSize sfB ≤ [5, 6].length :=
  c5_struct_decode_length_amended ruleC5 "B" sfB [5, 6] rfl rfl rfl

/-- C6: rule matching scans the rules in declaration order and returns
the first rule whose pattern search succeeds together with that match's
captures — when an earlier-declared rule matches, everything after it
(including other matching rules) is irrelevant — and when no rule's
pattern matches the identifier, the no-match result is returned. -/
theorem c6_first_match_wins (search : SearchFn) (s : String)
    (pre post : RuleList) (nm : String) (r : ConversionRule) (pat : String)
    (m : MatchRes)
    (hpre : ∀ q ∈ pre, ∃ qp, q.2.«match» = some qp ∧ search qp s = none)
    (hr : r.«match» = some pat) (hm : search pat s = some m) :
    match_rule search (pre ++ (nm, r) :: post) s = .ok (some (r, m)) ∧
    ∀ rules : RuleList,
      (∀ q ∈ rules, ∃ qp, q.2.«match» = some qp ∧ search qp s = none) →
      match_rule search rules s = .ok none := by
  have hnone : ∀ rules : RuleList,
      (∀ q ∈ rules, ∃ qp, q.2.«match» = some qp ∧ search qp s = none) →
      match_rule search rules s = .ok none := by
    intro rules
    induction rules with
    | nil => intro _; rfl
    | cons q rest ih =>
        intro hq
        obtain ⟨qp, hqp, hqs⟩ := hq q (by simp)
        simp [match_rule, hqp, hqs]
        exact ih (fun p hp => hq p (by simp [hp]))
  constructor
  · induction pre with
    | nil => simp [match_rule, hr, hm]
    | cons q rest ih =>
        obtain ⟨qp, hqp, hqs⟩ := hpre q (by simp)
        simp [match_rule, hqp, hqs]
        exact ih (fun p hp => hpre p (by simp [hp]))
  · exact hnone

/-- C6 witness: two fixture rules whose patterns both address subject
`t`; only the second one's pattern succeeds under `searchC6`, and the
scan returns it with its match. -/
theorem c6_first_match_wins_witness :
    match_rule searchC6 [("A", ruleC6A), ("B", ruleC6B)] "t" =
      .ok (some (ruleC6B, mC6)) :=
  (c6_first_match_wins searchC6 "t" [("A", ruleC6A)] [] "B" ruleC6B "b" mC6
    (by intro q hq
        rw [List.mem_singleton] at hq
        subst hq
        exact ⟨"a", rfl, rfl⟩)
    rfl rfl).1

/-- C7 counterexample: the claim says the rendered identifier interpolates
the coerced value sequence.  With topic template `{_values}` and an `int`
coercion on the incoming `['5']`, the rendered topic is `['5']` — the raw
pre-coercion list — while rendering the coerced sequence `(5,)` would
give `(5,)`. -/
theorem c7_render_precoercion_counterexample :
    from_osc searchC7 [("r", ruleC7)] "t" (Val.vlist [Val.vstr "5"]) =
      .ok (some ("[\x275\x27]", Val.vbytes [53])) ∧
    pyStr (Val.vtuple [Val.vint 5]) = "(5,)" ∧
    ("[\x275\x27]" : String) ≠ "(5,)" := ⟨rfl, rfl, by decide⟩

/-- C7 amended: in both directions the output identifier template is
rendered with the value sequence as bound *before* coercion and osctags
pairing — after payload decode inbound, after group-append outbound —
while the value sequence passed onward (and encoded outbound) is the
coerced and tagged one. -/
theorem c7_render_values_amended (search : SearchFn) (rules : RuleList)
    (rule : ConversionRule) (m : MatchRes)
    (topic : String) (payload : List Nat) (dv : Val)
    (addr : String) (values av : Val)
    (hm1 : match_rule search rules topic = .ok (some (rule, m)))
    (htg : truthyList rule.topic_groups = false)
    (hdec : decode_values payload rule = .ok dv)
    (hm2 : match_rule search rules addr = .ok (some (rule, m)))
    (happ : appendGroups m rule.address_groups values = .ok av) :
    (from_mqtt search rules topic payload = do
      let coerced ← if truthyConvList rule.from_mqtt then
          convert_mqtt_values (rule.from_mqtt.getD []) dv
        else .ok dv
      let tagged ← if truthyStr rule.osctags then
          osctagPair (rule.osctags.getD "") coerced
        else .ok coerced
      let a ← pyFormatT rule.address (matchGroupsD m) (mkKwargs m dv)
      .ok (some (a, tagged))) ∧
    (from_osc search rules addr values = do
      let coerced ← if truthyConvList rule.from_osc then
          convert_osc_values (rule.from_osc.getD []) av
        else .ok av
      let t ← pyFormatT rule.topic (matchGroupsD m) (mkKwargs m av)
      let data ← encode_values coerced rule
      .ok (some (t, data))) := by
  constructor
  · simp [from_mqtt, hm1, htg, hdec, Bind.bind, Except.bind]
  · simp [from_osc, hm2, happ, Bind.bind, Except.bind]

/-- C7 witness: the amended theorem applied to the fixture rule, with the
raw payload decode inbound and the `['5']` value list outbound. -/
theorem c7_render_values_amended_witness :
    (from_mqtt searchC7 [("r", ruleC7)] "t" [49] =
      Except.ok (some ("/a", Val.vtuple [Val.vbytes [49]]))) ∧
    (from_osc searchC7 [("r", ruleC7)] "t" (Val.vlist [Val.vstr "5"]) =
      Except.ok (some ("[\x275\x27]", Val.vbytes [53]))) :=
  c7_render_values_amended searchC7 [("r", ruleC7)] ruleC7 mC6 "t" [49]
    (Val.vtuple [Val.vbytes [49]]) "t" (Val.vlist [Val.vstr "5"])
    (Val.vlist [Val.vstr "5"]) rfl rfl rfl rfl rfl

/-- C8 counterexample: the claim says the `ConfigError` names the
offending rule.  Compiling the rule named `foozle` whose dict lacks the
`from_mqtt` key yields the message `Malformed conversion rule:
'from_mqtt'` — wrapping the `KeyError` text — in which the rule's name
does not occur. -/
theorem c8_error_message_counterexample :
    compileRules [("foozle", badRawC8)] =
      .error (.configError "Malformed conversion rule: \x27from_mqtt\x27") ∧
    occursIn "foozle" "Malformed conversion rule: \x27from_mqtt\x27" = false :=
  ⟨rfl, by decide⟩

/-- C8 amended: for every rule mapping containing a malformed rule — any
number of well-formed rules may precede it — compilation of the whole set
aborts with a `ConfigError` wrapping the underlying exception's message,
a message that does not depend on (and hence does not name) the offending
rule's name, and no rule set is produced: the earlier rules' successful
compilations are discarded with the error, so the caller never observes a
partially compiled set. -/
theorem c8_config_error_amended (good : List (String × RawRule))
    (nm : String) (raw : RawRule) (rest : List (String × RawRule)) (e : PyErr)
    (hgood : ∀ q ∈ good, ∃ r, compileRule q.2 = .ok r)
    (h : compileRule raw = .error e) :
    compileRules (good ++ (nm, raw) :: rest) =
      .error (.configError ("Malformed conversion rule: " ++ pyErrMsg e)) ∧
    ∀ nm' : String,
      compileRules (good ++ (nm', raw) :: rest) =
        compileRules (good ++ (nm, raw) :: rest) := by
  induction good with
  | nil =>
      constructor
      · simp [compileRules, h]
      · intro nm'; simp [compileRules, h]
  | cons q gs ih =>
      obtain ⟨r, hr⟩ := hgood q (by simp)
      have ih' := ih (fun p hp => hgood p (by simp [hp]))
      constructor
      · simp [compileRules, hr, ih'.1]
      · intro nm'
        simp [compileRules, hr, ih'.1, ih'.2 nm']

/-- C8 witness: the amended theorem applied to a mapping whose well-formed
rule `ok` precedes the malformed `foozle`, whose first field lookup raises
`KeyError`. -/
theorem c8_config_error_amended_witness :
    compileRules [("ok", goodRawC8), ("foozle", badRawC8)] =
      .error (.configError "Malformed conversion rule: \x27from_mqtt\x27") :=
  (c8_config_error_amended [("ok", goodRawC8)] "foozle" badRawC8 []
    (.keyError "from_mqtt")
    (by intro q hq
        rw [List.mem_singleton] at hq
        subst hq
        exact ⟨_, rfl⟩)
    rfl).1

/-- C9: a coercion-function name outside the fixed table resolves to
`None` in the converter table; a rule listing such a name in `from_mqtt`
still compiles (the whole ten-field rule compiles to a converter list
with `none` at that position), and during coercion the value at that
position passes through unchanged — no error at compile time or
translation time. -/
theorem c9_unrecognized_name_noop (nm : String) (h : nm ∉ convKeys) :
    convGet (Token.name nm) = none ∧
    (∀ m a t ag tg ty fmt fo tags s,
      compileRule (mkRawRule m a t ag tg ty fmt (some s) fo tags) =
        .ok { «match» := m, address := a, topic := t,
              address_groups := ag.map parse_list,
              topic_groups := tg.map parse_list,
              type := ty, format := fmt,
              from_mqtt := some ((parse_list s).map convGet),
              from_osc := fo.map (fun s' => (parse_list s').map convGet),
              osctags := tags }) ∧
    (∀ (pre suf : List (Option (Val → Val))) (ws us : List Val) (v : Val),
      ws.length = pre.length →
      convert_mqtt_values (pre ++ convGet (Token.name nm) :: suf)
          (Val.vtuple (ws ++ v :: us)) =
        .ok (.vtuple (List.zipWith convApply pre ws ++
          v :: List.zipWith convApply suf us))) := by
  simp only [convKeys, List.mem_cons, List.mem_singleton, not_or] at h
  obtain ⟨h1, h2, h3, h4, h5, h6, h7, h8, -⟩ := h
  have hget : convGet (Token.name nm) = none := by
    simp [convGet, h1, h2, h3, h4, h5, h6, h7, h8]
  refine ⟨hget, ?_, ?_⟩
  · intro m a t ag tg ty fmt fo tags s
    rfl
  · intro pre suf ws us v hlen
    simp only [convert_mqtt_values, pyIter, Bind.bind, Except.bind]
    rw [List.zipWith_append _ _ _ _ _ hlen.symm]
    simp [hget, convApply]

/-- C9 witness: the unrecognized name `xyz` resolves to no converter, and
the single value `7` passes through the coercion unchanged. -/
theorem c9_unrecognized_name_noop_witness :
    convGet (Token.name "xyz") = none ∧
    convert_mqtt_values [convGet (Token.name "xyz")]
        (Val.vtuple [Val.vint 7]) = .ok (.vtuple [.vint 7]) := by
  have h := c9_unrecognized_name_noop "xyz" (by decide)
  refine ⟨h.1, ?_⟩
  have h3 := h.2.2 [] [] [] [] (Val.vint 7) rfl
  simpa using h3

/-- C10: the coercion-application functions of the two directions are
extensionally equal — the source duplicates the same comprehension in
`convert_mqtt_values` and `convert_osc_values`. -/
theorem c10_convert_values_equal (c : List (Option (Val → Val))) (v : Val) :
    convert_mqtt_values c v = convert_osc_values c v := rfl
